import Mathlib

/-!
Verification development for the Momox ISBN scanner (`momox_agent.py`).

Shallow-embedding conventions used throughout this file:

* Python `float` values are modelled as rationals (`ℚ`).  Every numeric
  literal the program manipulates (prices of the form `d{1,3}[,.]d{2}`,
  the bounds 0 and 500, the excluded value 5.25) is a small decimal and
  hence exactly representable, so the rational model is exact on the
  inputs the program cares about.
* Python strings are Lean `String`s; all scanning is done on `String.data`
  (`List Char`).  `str.lower` is modelled per-character (ASCII); this is
  length-preserving, exactly like CPython on the ASCII/Latin inputs of
  this program.
* A network response is a status code plus a body text; `scraper_get`
  returning `None` (transport error / timeout) is `Option.none`.
* The two `re` patterns of the program are implemented directly as
  executable scanners with the same leftmost-match and backtracking
  behaviour.
* Fallible Python operations are `Option`/`Except` valued; an exception
  that the source catches locally is modelled by the corresponding
  fall-through.
-/

namespace Momox

/-- ASCII model of Python `str.lower` applied to one character. -/
def pyLowerChar (c : Char) : Char := c.toLower

/-- Model of Python `str.lower` on a character list. -/
def pyLower (cs : List Char) : List Char := cs.map pyLowerChar

/-- Python whitespace (the ASCII part), as used by `str.strip` and `\s`. -/
def isPySpace (c : Char) : Bool :=
  c = ' ' || c = '\t' || c = '\n' || c = '\r' || c = Char.ofNat 11 || c = Char.ofNat 12

/-- Python substring test `needle in hay`. -/
def isSubList (needle : List Char) : List Char → Bool
  | [] => needle.isPrefixOf []
  | c :: t => needle.isPrefixOf (c :: t) || isSubList needle t

/-- Helper for `pyFind`: first index at or after `i` where `needle` starts. -/
def pyFindAux (needle : List Char) : List Char → Int → Int
  | [], i => if needle.isPrefixOf ([] : List Char) then i else -1
  | c :: t, i => if needle.isPrefixOf (c :: t) then i else pyFindAux needle t (i + 1)

/-- Python `hay.find(needle)`: index of first occurrence, `-1` if absent. -/
def pyFind (hay needle : List Char) : Int := pyFindAux needle hay 0

/-- Python `str.strip()` (ASCII whitespace model). -/
def pyStrip (s : String) : String :=
  String.mk (((s.data.dropWhile isPySpace).reverse.dropWhile isPySpace).reverse)

/-- Named characters, kept out of literals. -/
def lbrace : Char := Char.ofNat 123

def rbrace : Char := Char.ofNat 125

def dquote : Char := Char.ofNat 34

def squote : Char := Char.ofNat 39

def bslash : Char := Char.ofNat 92

/-- Values produced by Python's `json.loads` (a parsed JSON document). -/
inductive PyVal where
  | null
  | bool (b : Bool)
  | num (q : ℚ)
  | str (s : String)
  | arr (xs : List PyVal)
  | obj (kvs : List (String × PyVal))

/-- Python `dict.get` on the association list of an object (last binding
wins, matching dict construction order in `json.loads`). -/
def pyGet (kvs : List (String × PyVal)) (k : String) : Option PyVal :=
  kvs.foldl (fun acc p => if p.1 = k then some p.2 else acc) none

/-- Python truthiness of a parsed JSON value. -/
def pyTruthy : PyVal → Bool
  | PyVal.null => false
  | PyVal.bool b => b
  | PyVal.num q => if q = 0 then false else true
  | PyVal.str s => if s = "" then false else true
  | PyVal.arr xs => if xs.isEmpty then false else true
  | PyVal.obj kvs => if kvs.isEmpty then false else true

/-- Numeric value of a list of decimal digit characters. -/
def digitsToNat (ds : List Char) : Nat :=
  ds.foldl (fun n c => 10 * n + (c.toNat - 48)) 0

/-- Model of Python `float(s)`: optional surrounding whitespace, optional
sign, decimal digits with an optional fractional part.  (Exponent, `inf`,
`nan` and digit underscores are not modelled; none of them can reach the
parser from the price patterns of this program.)  `none` models a
`ValueError`. -/
def pyFloat (s : String) : Option ℚ :=
  let cs := ((s.data.dropWhile isPySpace).reverse.dropWhile isPySpace).reverse
  let sgn : ℚ × List Char :=
    match cs with
    | '-' :: t => (-1, t)
    | '+' :: t => (1, t)
    | _ => (1, cs)
  let ip := sgn.2.takeWhile Char.isDigit
  let cs1 := sgn.2.dropWhile Char.isDigit
  match cs1 with
  | [] => if ip = [] then none else some (sgn.1 * (digitsToNat ip : ℚ))
  | '.' :: t =>
    let fp := t.takeWhile Char.isDigit
    let rest := t.dropWhile Char.isDigit
    if rest = [] ∧ (ip ≠ [] ∨ fp ≠ []) then
      some (sgn.1 * ((digitsToNat ip : ℚ) + (digitsToNat fp : ℚ) / (10 ^ fp.length)))
    else none
  | _ => none

/-- Round-half-to-even on rationals, matching Python's `round` on the
exactly representable values this program produces. -/
def roundHalfEven (q : ℚ) : ℤ :=
  let n : ℤ := ⌊q⌋
  let f : ℚ := q - (n : ℚ)
  if f < 1 / 2 then n
  else if 1 / 2 < f then n + 1
  else if n % 2 = 0 then n else n + 1

/-- Model of Python `round(pf, 2)`. -/
def pyRound2 (q : ℚ) : ℚ := ((roundHalfEven (q * 100) : ℤ) : ℚ) / 100

/-- Smallest exponent `k ≤ 40` with `d ∣ 10 ^ k`, for printing decimals. -/
def decExp (d : Nat) : Option Nat :=
  (List.range 40).find? (fun k => decide (d ∣ 10 ^ k))

/-- Model of Python `str` on a float, as a decimal numeral.  Value-faithful
under re-parsing by `float` (which is the only use the program makes of
it); the textual spelling of trailing zeros differs from CPython but the
numeric value is identical. -/
def pyStrNum (q : ℚ) : String :=
  if q.den = 1 then toString q.num
  else
    match decExp q.den with
    | some k =>
      let m := q.num.natAbs * (10 ^ k / q.den)
      let ds := (toString m).data
      let ds := if ds.length ≤ k then List.replicate (k + 1 - ds.length) '0' ++ ds else ds
      (if q.num < 0 then "-" else "") ++ String.mk (ds.take (ds.length - k)) ++ "." ++
        String.mk (ds.drop (ds.length - k))
    | none => toString q

/-- Model of Python `str(val)` on a parsed JSON value.  Container reprs are
abbreviated; like the CPython reprs they are never `float`-parseable,
which is the only property the program relies on. -/
def pyStr : PyVal → String
  | PyVal.null => "None"
  | PyVal.bool true => "True"
  | PyVal.bool false => "False"
  | PyVal.num q => pyStrNum q
  | PyVal.str s => s
  | PyVal.arr _ => "[...]"
  | PyVal.obj _ => String.mk [lbrace] ++ "..." ++ String.mk [rbrace]

/-- Python `len` on a parsed JSON value; `none` models a `TypeError`. -/
def pyLen : PyVal → Option Nat
  | PyVal.str s => some s.length
  | PyVal.arr xs => some xs.length
  | PyVal.obj kvs => some kvs.length
  | _ => none

/-- JSON insignificant whitespace. -/
def skipWsJ (cs : List Char) : List Char :=
  cs.dropWhile (fun c => c = ' ' || c = '\t' || c = '\n' || c = '\r')

/-- Parse the remainder of a JSON string literal (the opening quote has
been consumed); returns the decoded string and the rest of the input.
`\uXXXX` escapes are not modelled (they fail the parse); none of the
documents this development evaluates contain them. -/
def parseJStr : List Char → Option (String × List Char)
  | [] => none
  | c :: t =>
    if c = dquote then some ("", t)
    else if c = bslash then
      match t with
      | [] => none
      | e :: t2 =>
        let esc : Option Char :=
          if e = dquote then some dquote
          else if e = bslash then some bslash
          else if e = '/' then some '/'
          else if e = 'b' then some (Char.ofNat 8)
          else if e = 'f' then some (Char.ofNat 12)
          else if e = 'n' then some '\n'
          else if e = 'r' then some '\r'
          else if e = 't' then some '\t'
          else none
        match esc with
        | some ch =>
          match parseJStr t2 with
          | some (s, r) => some (String.mk (ch :: s.data), r)
          | none => none
        | none => none
    else
      match parseJStr t with
      | some (s, r) => some (String.mk (c :: s.data), r)
      | none => none

/-- Parse the exponent digits of a JSON number (after `e`/`E`). -/
def parseJExpTail (v : ℚ) (cs : List Char) : Option (ℚ × List Char) :=
  let esgn : Int × List Char :=
    match cs with
    | '-' :: t => (-1, t)
    | '+' :: t => (1, t)
    | _ => (1, cs)
  let ed := esgn.2.takeWhile Char.isDigit
  if ed = [] then none
  else some (v * (10 : ℚ) ^ (esgn.1 * (digitsToNat ed : Int)),
             esgn.2.dropWhile Char.isDigit)

/-- Parse a JSON number; returns its rational value and the rest. -/
def parseJNum (cs : List Char) : Option (ℚ × List Char) :=
  let sgn : ℚ × List Char :=
    match cs with
    | '-' :: t => (-1, t)
    | _ => (1, cs)
  let ip := sgn.2.takeWhile Char.isDigit
  if ip = [] then none
  else
    let cs2 := sgn.2.dropWhile Char.isDigit
    let base : Option (ℚ × List Char) :=
      match cs2 with
      | '.' :: t =>
        let fp := t.takeWhile Char.isDigit
        if fp = [] then none
        else some ((digitsToNat ip : ℚ) + (digitsToNat fp : ℚ) / (10 ^ fp.length),
                   t.dropWhile Char.isDigit)
      | _ => some ((digitsToNat ip : ℚ), cs2)
    match base with
    | none => none
    | some (v, cs3) =>
      match cs3 with
      | 'e' :: t => parseJExpTail (sgn.1 * v) t
      | 'E' :: t => parseJExpTail (sgn.1 * v) t
      | _ => some (sgn.1 * v, cs3)

mutual

/-- Fuel-indexed recursive-descent JSON value parser (model of the core of
`json.loads`).  The fuel only bounds recursion depth along a parse path;
`pyJsonLoads` supplies enough for any input. -/
def parseJVal : Nat → List Char → Option (PyVal × List Char)
  | 0, _ => none
  | Nat.succ f, cs0 =>
    let cs := skipWsJ cs0
    match cs with
    | [] => none
    | c :: t =>
      if c = lbrace then
        let t1 := skipWsJ t
        match t1 with
        | d :: t2 => if d = rbrace then some (PyVal.obj [], t2) else parseJMembers f t1 []
        | [] => none
      else if c = '[' then
        let t1 := skipWsJ t
        match t1 with
        | d :: t2 => if d = ']' then some (PyVal.arr [], t2) else parseJItems f t1 []
        | [] => none
      else if c = dquote then
        match parseJStr t with
        | some (s, r) => some (PyVal.str s, r)
        | none => none
      else if ['t', 'r', 'u', 'e'].isPrefixOf cs then some (PyVal.bool true, cs.drop 4)
      else if ['f', 'a', 'l', 's', 'e'].isPrefixOf cs then some (PyVal.bool false, cs.drop 5)
      else if ['n', 'u', 'l', 'l'].isPrefixOf cs then some (PyVal.null, cs.drop 4)
      else
        match parseJNum cs with
        | some (q, r) => some (PyVal.num q, r)
        | none => none

/-- Members of a JSON object (after the opening brace, first key next). -/
def parseJMembers : Nat → List Char → List (String × PyVal) →
    Option (PyVal × List Char)
  | 0, _, _ => none
  | Nat.succ f, cs0, acc =>
    let cs := skipWsJ cs0
    match cs with
    | c :: t =>
      if c = dquote then
        match parseJStr t with
        | some (k, r1) =>
          match skipWsJ r1 with
          | ':' :: r3 =>
            match parseJVal f r3 with
            | some (v, r4) =>
              match skipWsJ r4 with
              | ',' :: r6 => parseJMembers f r6 (acc ++ [(k, v)])
              | d :: r6 =>
                if d = rbrace then some (PyVal.obj (acc ++ [(k, v)]), r6) else none
              | [] => none
            | none => none
          | _ => none
        | none => none
      else none
    | [] => none

/-- Items of a JSON array (after the opening bracket, first item next). -/
def parseJItems : Nat → List Char → List PyVal → Option (PyVal × List Char)
  | 0, _, _ => none
  | Nat.succ f, cs0, acc =>
    match parseJVal f cs0 with
    | some (v, r1) =>
      match skipWsJ r1 with
      | ',' :: r2 => parseJItems f r2 (acc ++ [v])
      | ']' :: r2 => some (PyVal.arr (acc ++ [v]), r2)
      | _ => none
    | none => none

end

/-- Model of Python `json.loads`: `none` is a raised `JSONDecodeError`. -/
def pyJsonLoads (s : String) : Option PyVal :=
  match parseJVal (s.length + 2) s.data with
  | some (v, rest) => if skipWsJ rest = [] then some v else none
  | none => none

/-- The ordered price-field aliases of `parse_price_from_json`. -/
def parse_price_keys : List String :=
  ["price", "purchasePrice", "sell_price", "ankaufspreis", "offer_price"]

/-- One loop body of `parse_price_from_json`:
`float(str(val).replace(",", "."))` guarded by `0 < pf < 500`, with a
caught `ValueError` and a failed bound both falling through to the next
key.  The returned rational is the value of the Python result string
`str(round(pf, 2))`. -/
def priceFromVal (v : PyVal) : Option ℚ :=
  match pyFloat (String.mk ((pyStr v).data.map (fun c => if c = ',' then '.' else c))) with
  | some pf => if 0 < pf ∧ pf < 500 then some (pyRound2 pf) else none
  | none => none

/-- The `for key in [...]` loop of `parse_price_from_json`.  A JSON `null`
value is Python `None`, so it fails the `if val is not None` test exactly
like an absent key. -/
def parse_price_loop (kvs : List (String × PyVal)) : List String → Option ℚ
  | [] => none
  | key :: ks =>
    match pyGet kvs key with
    | none => parse_price_loop kvs ks
    | some PyVal.null => parse_price_loop kvs ks
    | some v =>
      match priceFromVal v with
      | some p => some p
      | none => parse_price_loop kvs ks

/-- Function `parse_price_from_json` on a dict (its documented input type). -/
def parse_price_from_json (kvs : List (String × PyVal)) : Option ℚ :=
  parse_price_loop kvs parse_price_keys

/-- Function `parse_price_from_json` applied to an arbitrary parsed JSON value, the
way its call sites use it: `data.get(...)` raises `AttributeError` on any
non-dict, modelled by `Except.error`. -/
def parse_price_from_json_dyn : PyVal → Except String (Option ℚ)
  | PyVal.obj kvs => Except.ok (parse_price_from_json kvs)
  | _ => Except.error "AttributeError"

/-- The fixed will-not-buy phrase list of `is_not_buying`. -/
def notBuySignals : List String :=
  ["leider nicht ankaufen", "nicht angekauft", "wird leider nicht", "no_offer"]

/-- Function `is_not_buying`: any signal phrase occurs in the lower-cased page. -/
def is_not_buying (html : String) : Bool :=
  notBuySignals.any (fun s => isSubList s.data (pyLower html.data))

/-- Case-insensitive literal matcher (pattern given in lower case);
returns the rest of the input after the literal. -/
def matchCI (pat : List Char) (cs : List Char) : Option (List Char) :=
  match pat, cs with
  | [], rest => some rest
  | _ :: _, [] => none
  | p :: ps, c :: t => if pyLowerChar c = p then matchCI ps t else none

/-- Try to match `\d{k}[,.]\d{2}\s*€` at the head of the input; returns the
captured group `\d{k}[,.]\d{2}`. -/
def matchPriceTail (k : Nat) (cs : List Char) : Option (List Char) :=
  let ds := cs.take k
  if ds.length = k ∧ ds.all Char.isDigit then
    match cs.drop k with
    | sep :: d1 :: d2 :: rest =>
      if (sep = ',' ∨ sep = '.') ∧ d1.isDigit ∧ d2.isDigit then
        match rest.dropWhile isPySpace with
        | e :: _ => if e = '€' then some (ds ++ [sep, d1, d2]) else none
        | [] => none
      else none
    | _ => none
  else none

/-- Greedy `\d{1,3}` of the price group: three digits are tried first,
then two, then one, exactly as the regex engine backtracks. -/
def matchPriceGroup (cs : List Char) : Option (List Char) :=
  match matchPriceTail 3 cs with
  | some g => some g
  | none =>
    match matchPriceTail 2 cs with
    | some g => some g
    | none => matchPriceTail 1 cs

/-- The lazy gap `.{0,200}?` (DOTALL) before the price group: the smallest
gap wins, up to 200 characters. -/
def gapSearch : Nat → List Char → Option (List Char)
  | fuel, cs =>
    match matchPriceGroup cs with
    | some g => some g
    | none =>
      match fuel, cs with
      | 0, _ => none
      | _, [] => none
      | Nat.succ f, _ :: t => gapSearch f t

/-- Anchored match of `Du\s+erh[äa]ltst.{0,200}?(\d{1,3}[,.]\d{2})\s*€`
(IGNORECASE, DOTALL) at the head of the input; returns group 1. -/
def duMatchAt (cs : List Char) : Option (List Char) :=
  match matchCI ['d', 'u'] cs with
  | none => none
  | some r1 =>
    if r1.takeWhile isPySpace = [] then none
    else
      match matchCI ['e', 'r', 'h'] (r1.dropWhile isPySpace) with
      | none => none
      | some r2 =>
        match r2 with
        | a :: r3 =>
          if pyLowerChar a = 'ä' ∨ pyLowerChar a = 'a' then
            match matchCI ['l', 't', 's', 't'] r3 with
            | none => none
            | some r4 => gapSearch 200 r4
          else none
        | [] => none

/-- Model of `re.search` of the price-announcement pattern: leftmost start wins. -/
def duSearch : List Char → Option (List Char)
  | [] => none
  | c :: t =>
    match duMatchAt (c :: t) with
    | some g => some g
    | none => duSearch t

/-- Length of the maximal brace-free run at the head of the input. -/
def countNonBrace (cs : List Char) : Nat :=
  (cs.takeWhile (fun c => c != lbrace && c != rbrace)).length

/-- Model of the blob findall `r'\{[^{}]{0,1000}\}'`: all non-overlapping matches,
leftmost first, scanning forward one character on a failed start.  The
fuel is at least the input length, so it never runs out. -/
def findBlobs : Nat → List Char → List (List Char)
  | 0, _ => []
  | _, [] => []
  | Nat.succ f, c :: t =>
    if c = lbrace then
      let k := min (countNonBrace t) 1000
      match (t.drop k).head? with
      | some d =>
        if d = rbrace then
          (lbrace :: (t.take k ++ [rbrace])) :: findBlobs f (t.drop (k + 1))
        else findBlobs f t
      | none => findBlobs f t
    else findBlobs f t

/-- The embedded-JSON-blob loop of `parse_price_from_html`: a blob without
"price", a `json.loads` failure and an `AttributeError` inside
`parse_price_from_json` are all caught and skipped; a price equal to the
known false positive 5.25 is skipped as well. -/
def blobScan : List (List Char) → Option ℚ
  | [] => none
  | b :: bs =>
    if isSubList "price".data (pyLower b) then
      match pyJsonLoads (String.mk b) with
      | none => blobScan bs
      | some v =>
        match parse_price_from_json_dyn v with
        | Except.error _ => blobScan bs
        | Except.ok none => blobScan bs
        | Except.ok (some p) => if p ≠ (21 / 4 : ℚ) then some p else blobScan bs
    else blobScan bs

/-- Index of the footer marker: `html.lower().find("<footer")`. -/
def footerPos (html : String) : Int := pyFind (pyLower html.data) "<footer".data

/-- The slice `html[:footer_pos] if footer_pos > 0 else html`. -/
def htmlMain (html : String) : List Char :=
  if footerPos html > 0 then html.data.take (footerPos html).toNat else html.data

/-- Body of `parse_price_from_html` after footer stripping: the
price-announcement phrase first (its group always re-parses as a float,
and a failed bounds check falls through, like the source's `pass`), then
the embedded-JSON-blob scan. -/
def mainRegionPrice (cs : List Char) : Option ℚ :=
  match duSearch cs with
  | some g =>
    match pyFloat (String.mk (g.map (fun c => if c = ',' then '.' else c))) with
    | some pf =>
      if 0 < pf ∧ pf < 500 then some (pyRound2 pf)
      else blobScan (findBlobs (cs.length + 1) cs)
    | none => blobScan (findBlobs (cs.length + 1) cs)
  | none => blobScan (findBlobs (cs.length + 1) cs)

/-- Function `parse_price_from_html`. -/
def parse_price_from_html (html : String) : Option ℚ :=
  mainRegionPrice (htmlMain html)

/-- The literal part of the JSON-LD pattern. -/
def jsonldPat : List Char := "application/ld+json".data

/-- The lazy group `(.*?)` before a literal: characters up to the first
occurrence of the literal, `none` if the literal never occurs. -/
def splitBeforeSub (needle : List Char) : List Char → Option (List Char)
  | [] => if needle.isPrefixOf ([] : List Char) then some [] else none
  | c :: t =>
    if needle.isPrefixOf (c :: t) then some []
    else
      match splitBeforeSub needle t with
      | some g => some (c :: g)
      | none => none

/-- Anchored match of `application/ld\+json["\'][^>]*>(.*?)</script>`
(DOTALL) at the head of the input; returns group 1.  `[^>]*` greedily
consumes the maximal `>`-free run, after which `>` must follow —
backtracking cannot rescue a failure, exactly as in the regex engine. -/
def jsonldAt (cs : List Char) : Option (List Char) :=
  if jsonldPat.isPrefixOf cs then
    match cs.drop jsonldPat.length with
    | q :: r1 =>
      if q = dquote ∨ q = squote then
        match r1.dropWhile (fun c => c != '>') with
        | _ :: r3 => splitBeforeSub "</script>".data r3
        | [] => none
      else none
    | [] => none
  else none

/-- Model of `re.search` of the JSON-LD pattern: leftmost start wins. -/
def jsonldSearch : List Char → Option (List Char)
  | [] => none
  | c :: t =>
    match jsonldAt (c :: t) with
    | some g => some g
    | none => jsonldSearch t

/-- The JSON-LD branch of `extract_title`: `jd.get("name") or
jd.get("title")` (Python `or`: first truthy operand, else the second),
then `if t and len(t) > 3: return t`.  A non-dict `jd`, a `json.loads`
failure and a `len` `TypeError` are all caught and fall through. -/
def jsonldTitle (html : String) : Option String :=
  match jsonldSearch html.data with
  | none => none
  | some inner =>
    match pyJsonLoads (String.mk inner) with
    | some (PyVal.obj kvs) =>
      let t : PyVal :=
        match pyGet kvs "name" with
        | some v => if pyTruthy v then v else (pyGet kvs "title").getD PyVal.null
        | none => (pyGet kvs "title").getD PyVal.null
      match pyLen t with
      | some n => if pyTruthy t ∧ 3 < n then some (pyStr t) else none
      | none => none
    | _ => none

/-- Anchored match of `<h1[^>]*>([^<]+)</h1>` at the head of the input;
returns group 1. -/
def h1At (cs : List Char) : Option (List Char) :=
  if "<h1".data.isPrefixOf cs then
    match (cs.drop 3).dropWhile (fun c => c != '>') with
    | _ :: r2 =>
      let body := r2.takeWhile (fun c => c != '<')
      if body = [] then none
      else if "</h1>".data.isPrefixOf (r2.drop body.length) then some body
      else none
    | [] => none
  else none

/-- Model of `re.search` of the `<h1>` pattern: leftmost start wins. -/
def h1Search : List Char → Option (List Char)
  | [] => none
  | c :: t =>
    match h1At (c :: t) with
    | some g => some g
    | none => h1Search t

/-- The `<h1>` branch of `extract_title`: strip the captured text, keep it
when it is longer than 3 and does not mention momox, else the isbn. -/
def h1Title (html isbn : String) : String :=
  match h1Search html.data with
  | some body =>
    let t := String.mk (((body.dropWhile isPySpace).reverse.dropWhile isPySpace).reverse)
    if 3 < t.length ∧ isSubList "momox".data (pyLower t.data) = false then t else isbn
  | none => isbn

/-- Function `extract_title`. -/
def extract_title (html isbn : String) : String :=
  match jsonldTitle html with
  | some t => t
  | none => h1Title html isbn

/-- A network response: status code and body text.  `scraper_get` hands
exactly these two fields to `check_isbn_on_momox`. -/
structure Response where
  status_code : Nat
  text : String
deriving DecidableEq

/-- The fixed responses of the three fetch tiers for one identifier (the
claims quantify over "fixed assignment of responses to tiers"): the `api`
tier fetches the API URL un-rendered, `plain` the offer URL un-rendered,
`render` the offer URL rendered.  `none` models `scraper_get` returning
`None` after a transport error. -/
structure Env where
  api : Option Response
  plain : Option Response
  render : Option Response
deriving DecidableEq

/-- The result dict of `check_isbn_on_momox`.  `price` carries the numeric
value of the Python price string (which is never empty, so `price` is
truthy iff it is not `None`, i.e. `isSome`). -/
structure Outcome where
  isbn : String
  available : Bool
  price : Option ℚ
  title : String
  url : String
  error : Option String
deriving DecidableEq

/-- The availability tri-state of the specification, as the report code
derives it from a result dict: buyable when `available`, otherwise
unknown-due-to-error when `error` is set, otherwise not-buyable. -/
inductive Avail where
  | buyable
  | notBuyable
  | unknown
deriving DecidableEq

def availability (o : Outcome) : Avail :=
  if o.available then Avail.buyable
  else if o.error.isSome then Avail.unknown
  else Avail.notBuyable

def offerUrl (isbn : String) : String := "https://www.momox.de/offer/" ++ isbn

/-- A conclusive not-buying result dict. -/
def outNotBuy (isbn title : String) : Outcome :=
  ⟨isbn, false, none, title, offerUrl isbn, none⟩

/-- A conclusive buyable result dict. -/
def outBuy (isbn : String) (p : ℚ) (title : String) : Outcome :=
  ⟨isbn, true, some p, title, offerUrl isbn, none⟩

/-- The string `str(response.status_code) if response else "no response"`.  A
`requests` response is truthy iff `response.ok`, i.e. its status code is
outside 400..599, so an error-status render response also reads
"no response" here. -/
def statusStr : Option Response → String
  | some r =>
    if 400 ≤ r.status_code ∧ r.status_code < 600 then "no response"
    else toString r.status_code
  | none => "no response"

/-- The result dict of the unconditional return at the end of the render
branch. -/
def outExhausted (isbn : String) (resp : Option Response) : Outcome :=
  ⟨isbn, false, none, isbn, offerUrl isbn,
   some ("All strategies failed (last HTTP: " ++ statusStr resp ++ ")")⟩

/-- The result dict of the post-loop return of `check_isbn_on_momox`. -/
def outFallback (isbn : String) : Outcome :=
  ⟨isbn, false, none, isbn, offerUrl isbn, some "Could not retrieve data"⟩

/-- The title `data.get("title") or data.get("name") or isbn` of the api branch,
rendered to a string for the `title` field. -/
def titleFrom (kvs : List (String × PyVal)) (isbn : String) : String :=
  let t1 := (pyGet kvs "title").getD PyVal.null
  if pyTruthy t1 then pyStr t1
  else
    let t2 := (pyGet kvs "name").getD PyVal.null
    if pyTruthy t2 then pyStr t2 else isbn

/-- The api strategy body on a 200 response: skip when the stripped body
looks like HTML; otherwise `response.json()` (a parse failure or an
`AttributeError` from a non-dict is caught, ending the try block), then
the `no_offer`/`blocked` status test, then the price test.  `none` means
the strategy fell through to the next tier. -/
def apiConclude (r : Response) (isbn : String) : Option Outcome :=
  if "<".data.isPrefixOf (pyStrip r.text).data then none
  else
    match pyJsonLoads r.text with
    | some (PyVal.obj kvs) =>
      let price := parse_price_from_json kvs
      let status := (pyGet kvs "status").getD (PyVal.str "")
      if isSubList "no_offer".data (pyLower (pyStr status).data) ||
          isSubList "blocked".data (pyLower (pyStr status).data) then
        some (outNotBuy isbn (titleFrom kvs isbn))
      else
        match price with
        | some p => some (outBuy isbn p (titleFrom kvs isbn))
        | none => none
    | _ => none

/-- The api strategy: requires a response with HTTP 200.  The source's
`if response and response.status_code == 200` is equivalent to this —
`requests` truthiness only rules out statuses in 400..599, all of which
already fail the `== 200` test. -/
def apiAttempt (resp : Option Response) (isbn : String) : Option Outcome :=
  match resp with
  | some r => if r.status_code = 200 then apiConclude r isbn else none
  | none => none

/-- The shared conclusive logic of the plain and render branches:
`is_not_buying` first, then `parse_price_from_html`. -/
def htmlConclude (html isbn : String) : Option Outcome :=
  if is_not_buying html then some (outNotBuy isbn (extract_title html isbn))
  else
    match parse_price_from_html html with
    | some p => some (outBuy isbn p (extract_title html isbn))
    | none => none

/-- The plain strategy: requires a response with HTTP 200. -/
def plainAttempt (resp : Option Response) (isbn : String) : Option Outcome :=
  match resp with
  | some r => if r.status_code = 200 then htmlConclude r.text isbn else none
  | none => none

/-- The conclusive part of the render strategy (textually identical to the
plain branch in the source). -/
def renderAttempt (resp : Option Response) (isbn : String) : Option Outcome :=
  match resp with
  | some r => if r.status_code = 200 then htmlConclude r.text isbn else none
  | none => none

/-- The strategy-list construction of `check_isbn_on_momox`: the known
method (when it is one of the three strategy names; `None` and unknown
strings leave the list unchanged) is moved to the front, the others keep
their order. -/
def strategiesFor (km : Option String) : List String :=
  let strategies : List String := ["api", "plain", "render"]
  match km with
  | some m =>
    if m ∈ strategies then m :: strategies.filter (fun s => s ≠ m) else strategies
  | none => strategies

/-- The `for strategy in strategies` loop.  Each iteration makes one
`scraper_get` call; the render branch returns unconditionally (either its
conclusive result or the exhausted result).  The third component is the
list of strategies tried, in order. -/
def checkLoop (env : Env) (isbn : String) : List String → Outcome × Option String × List String
  | [] => (outFallback isbn, none, [])
  | s :: rest =>
    if s = "api" then
      match apiAttempt env.api isbn with
      | some out => (out, some "api", [s])
      | none =>
        let r := checkLoop env isbn rest
        (r.1, r.2.1, s :: r.2.2)
    else if s = "plain" then
      match plainAttempt env.plain isbn with
      | some out => (out, some "plain", [s])
      | none =>
        let r := checkLoop env isbn rest
        (r.1, r.2.1, s :: r.2.2)
    else if s = "render" then
      match renderAttempt env.render isbn with
      | some out => (out, some "render", [s])
      | none => (outExhausted isbn env.render, none, [s])
    else
      let r := checkLoop env isbn rest
      (r.1, r.2.1, s :: r.2.2)

/-- Function `check_isbn_on_momox`, instrumented with the list of tried tiers. -/
def check_isbn_run (env : Env) (isbn : String) (km : Option String) :
    Outcome × Option String × List String :=
  checkLoop env isbn (strategiesFor km)

/-- Function `check_isbn_on_momox`: `(result_dict, method_that_worked)`. -/
def check_isbn_on_momox (env : Env) (isbn : String) (km : Option String) :
    Outcome × Option String :=
  ((check_isbn_run env isbn km).1, (check_isbn_run env isbn km).2.1)

/-- The attempt function of one named tier, as dispatched by the loop. -/
def tierAttempt (env : Env) (isbn : String) (t : String) : Option Outcome :=
  if t = "api" then apiAttempt env.api isbn
  else if t = "plain" then plainAttempt env.plain isbn
  else if t = "render" then renderAttempt env.render isbn
  else none

/-- The prefix of a strategy list up to and including its first `render`
entry (the portion the loop can ever visit past conclusive failures). -/
def upToRender : List String → List String
  | [] => []
  | s :: rest => if s = "render" then [s] else s :: upToRender rest

/-- The Method Memory, `methods.get(isbn)` style. -/
def Methods : Type := String → Option String

/-- The update `if method: methods[isbn] = method`. -/
def updateMethods (methods : Methods) (isbn : String) : Option String → Methods
  | some t => fun x => if x = isbn then some t else methods x
  | none => methods

/-- Observable scheduler events of one pass: a resolution of an identifier
(`net` records whether `check_isbn_on_momox` — and hence at least one
`scraper_get` network call — ran, `method` the conclusive tier if any),
and a `time.sleep(DELAY_BETWEEN_REQUESTS)`. -/
inductive Ev where
  | resolve (isbn : String) (net : Bool) (method : Option String)
  | sleep
deriving DecidableEq

/-- Result of pass 1 of `scan_all_isbns`. -/
structure Pass1Out where
  methods : Methods
  pending : List String
  results : List Outcome
  trace : List Ev
  credits : Nat

/-- Result of pass 2 of `scan_all_isbns`. -/
structure Pass2Out where
  methods : Methods
  results : List Outcome
  trace : List Ev
  credits : Nat

/-- Pass 1 of `scan_all_isbns` over the remaining identifiers, `i` being
the 1-based index of the next one and `n` the total count (the source's
`enumerate(isbns, 1)` and `len(isbns)`).  A memory entry `render` defers
the identifier without a network call; an exhausted resolution
(`method is None`) defers it after its network calls; both `continue`
past the credit count, the memory update, the result append and the
sleep.  A conclusive resolution updates memory and sleeps unless it is
the last identifier. -/
def pass1 (env : String → Env) (n : Nat) : Nat → Methods → List String → Pass1Out
  | _, methods, [] => ⟨methods, [], [], [], 0⟩
  | i, methods, isbn :: rest =>
    let known := methods isbn
    if known = some "render" then
      let r := pass1 env n (i + 1) methods rest
      ⟨r.methods, isbn :: r.pending, r.results, Ev.resolve isbn false none :: r.trace,
       r.credits⟩
    else
      let cr := check_isbn_run (env isbn) isbn known
      if cr.2.1 = some "render" ∨ cr.2.1 = some "api" ∨ cr.2.1 = some "plain" then
        let credits := if cr.2.1 = some "render" then 10 else 1
        let methods1 := updateMethods methods isbn cr.2.1
        let slp : List Ev := if i < n then [Ev.sleep] else []
        let r := pass1 env n (i + 1) methods1 rest
        ⟨r.methods, r.pending, cr.1 :: r.results,
         Ev.resolve isbn true cr.2.1 :: (slp ++ r.trace), credits + r.credits⟩
      else
        let r := pass1 env n (i + 1) methods rest
        ⟨r.methods, isbn :: r.pending, r.results,
         Ev.resolve isbn true cr.2.1 :: r.trace, r.credits⟩

/-- Pass 2 of `scan_all_isbns`: every deferred identifier is resolved with
`known_method="render"`, costs 10 credits, updates memory when a method
worked, and sleeps unless it is the last deferred identifier. -/
def pass2 (env : String → Env) (n2 : Nat) : Nat → Methods → List String → Pass2Out
  | _, methods, [] => ⟨methods, [], [], 0⟩
  | i, methods, isbn :: rest =>
    let cr := check_isbn_run (env isbn) isbn (some "render")
    let methods1 := updateMethods methods isbn cr.2.1
    let slp : List Ev := if i < n2 then [Ev.sleep] else []
    let r := pass2 env n2 (i + 1) methods1 rest
    ⟨r.methods, cr.1 :: r.results, Ev.resolve isbn true cr.2.1 :: (slp ++ r.trace),
     10 + r.credits⟩

/-- Result of `scan_all_isbns`, keeping the two pass traces separate. -/
structure ScanOut where
  results : List Outcome
  methods : Methods
  trace1 : List Ev
  trace2 : List Ev
  credits : Nat

/-- Function `scan_all_isbns` (the fatal missing-credential guard aborts before any
identifier is processed and is outside the modelled core). -/
def scan_all_isbns (env : String → Env) (isbns : List String) (methods0 : Methods) :
    ScanOut :=
  let p1 := pass1 env isbns.length 1 methods0 isbns
  let p2 := pass2 env p1.pending.length 1 p1.methods p1.pending
  ⟨p1.results ++ p2.results, p2.methods, p1.trace, p2.trace, p1.credits + p2.credits⟩

/-- The strict politeness predicate of the claim: between any two
resolutions that each performed a network call, a sleep must occur.  The
Boolean state says a network resolution has happened with no sleep yet. -/
def polS : Bool → List Ev → Bool
  | _, [] => true
  | _, Ev.sleep :: r => polS false r
  | owed, Ev.resolve _ net _ :: r =>
    if net then (if owed then false else polS true r) else polS owed r

/-- The politeness discipline the scheduler actually maintains in pass 1:
after a conclusive network resolution, a sleep occurs before the next
network resolution.  The state says a conclusive resolution has happened
with no sleep yet. -/
def polC : Bool → List Ev → Bool
  | _, [] => true
  | _, Ev.sleep :: r => polC false r
  | owed, Ev.resolve _ net m :: r =>
    if net then (if owed then false else polC m.isSome r)
    else polC (owed || m.isSome) r

/-- Predicate `Except.isOk` (spelled out to keep the development self-contained). -/
def exceptOk : Except String (Option ℚ) → Bool
  | Except.ok _ => true
  | Except.error _ => false

/-- No tier of an environment yields a conclusive result. -/
abbrev noTierConclusive (env : Env) (isbn : String) : Prop :=
  apiAttempt env.api isbn = none ∧ plainAttempt env.plain isbn = none ∧
    renderAttempt env.render isbn = none

/-- A 200 API response whose JSON body carries a price. -/
def respOkApi : Response :=
  ⟨200, "\x7b\"price\": \"1,64\", \"title\": \"X\"\x7d"⟩

/-- A 200 response whose body is inconclusive free text. -/
def respBlank : Response := ⟨200, "hello"⟩

/-- Environment: every tier fails (transport errors everywhere). -/
def envFailAll : Env := ⟨none, none, none⟩

/-- Environment: the api tier is conclusive, the render tier responds with
HTTP 200 but inconclusively, the plain tier has a transport error. -/
def envMix : Env := ⟨some respOkApi, none, some respBlank⟩

/-- Environment: every tier inconclusive, the render tier with HTTP 200. -/
def envNoConcl : Env := ⟨none, none, some respBlank⟩

/-- Per-identifier environment for the scheduler counterexample:
identifier "A" can never be resolved, identifier "B" resolves at the api
tier. -/
def envAB : String → Env := fun s => if s = "A" then envNoConcl else envMix

/-- Empty Method Memory. -/
def m0none : Methods := fun _ => none

/-- The free-text document of the 2,50 € extraction example: the phrase in
the main region, an excluded footer with no price. -/
def exampleHtml250 : String :=
  "<p>Ankauf</p><p>Du erhältst 2,50 €</p><footer>Impressum</footer>"

/-- A document that begins with the footer marker at index 0 and whose
only price sits inside the footer region. -/
def exampleFooterAt0 : String :=
  "<footer>Preis \x7b\"price\": \"3,00\"\x7d</footer>"

/-- A not-buying page that also shows a price-like amount. -/
def exampleNotBuy : String :=
  "Diesen Artikel können wir leider nicht ankaufen. Neupreis: 3,99 €"

/-- Every entry of `methods` either survives from `m0` or names a tier
whose fixed response conclusively resolved that identifier. -/
def GoodMem (env : String → Env) (m0 methods : Methods) : Prop :=
  ∀ x, methods x = m0 x ∨
    ∃ t out, methods x = some t ∧ tierAttempt (env x) x t = some out

theorem apiConclude_shape (r : Response) (isbn : String) (o : Outcome)
    (h : apiConclude r isbn = some o) :
    (∃ t, o = outNotBuy isbn t) ∨ ∃ p t, o = outBuy isbn p t := by
  unfold apiConclude at h
  split at h
  · exact absurd h (by simp)
  · split at h
    next kvs =>
      dsimp only at h
      split at h
      · exact Or.inl ⟨_, (Option.some.inj h).symm⟩
      · split at h
        · exact Or.inr ⟨_, _, (Option.some.inj h).symm⟩
        · exact absurd h (by simp)
    next => exact absurd h (by simp)

theorem htmlConclude_shape (html isbn : String) (o : Outcome)
    (h : htmlConclude html isbn = some o) :
    (∃ t, o = outNotBuy isbn t) ∨ ∃ p t, o = outBuy isbn p t := by
  unfold htmlConclude at h
  split at h
  · exact Or.inl ⟨_, (Option.some.inj h).symm⟩
  · split at h
    · exact Or.inr ⟨_, _, (Option.some.inj h).symm⟩
    · exact absurd h (by simp)

theorem apiAttempt_shape (resp : Option Response) (isbn : String) (o : Outcome)
    (h : apiAttempt resp isbn = some o) :
    (∃ t, o = outNotBuy isbn t) ∨ ∃ p t, o = outBuy isbn p t := by
  unfold apiAttempt at h
  split at h
  next r =>
    split at h
    · exact apiConclude_shape r isbn o h
    · exact absurd h (by simp)
  next => exact absurd h (by simp)

theorem plainAttempt_shape (resp : Option Response) (isbn : String) (o : Outcome)
    (h : plainAttempt resp isbn = some o) :
    (∃ t, o = outNotBuy isbn t) ∨ ∃ p t, o = outBuy isbn p t := by
  unfold plainAttempt at h
  split at h
  next r =>
    split at h
    · exact htmlConclude_shape r.text isbn o h
    · exact absurd h (by simp)
  next => exact absurd h (by simp)

theorem renderAttempt_shape (resp : Option Response) (isbn : String) (o : Outcome)
    (h : renderAttempt resp isbn = some o) :
    (∃ t, o = outNotBuy isbn t) ∨ ∃ p t, o = outBuy isbn p t := by
  unfold renderAttempt at h
  split at h
  next r =>
    split at h
    · exact htmlConclude_shape r.text isbn o h
    · exact absurd h (by simp)
  next => exact absurd h (by simp)

theorem tierAttempt_shape (env : Env) (isbn : String) (t : String) (o : Outcome)
    (h : tierAttempt env isbn t = some o) :
    (∃ s, o = outNotBuy isbn s) ∨ ∃ p s, o = outBuy isbn p s := by
  unfold tierAttempt at h
  split_ifs at h
  · exact apiAttempt_shape env.api isbn o h
  · exact plainAttempt_shape env.plain isbn o h
  · exact renderAttempt_shape env.render isbn o h

/-- Master lemma on the strategy loop: a conclusive method names a tier of
the list whose attempt produced exactly the returned result; an exhausted
run reached the first `render` entry of the list (or, with no `render`
entry, the post-loop fallback) and its trace is the corresponding prefix;
the trace is always a prefix of the list. -/
theorem checkLoop_spec (env : Env) (isbn : String) :
    ∀ l : List String,
      (∀ t, (checkLoop env isbn l).2.1 = some t →
          t ∈ l ∧ tierAttempt env isbn t = some (checkLoop env isbn l).1) ∧
      ((checkLoop env isbn l).2.1 = none →
          ("render" ∈ l ∧ (checkLoop env isbn l).1 = outExhausted isbn env.render ∧
              (checkLoop env isbn l).2.2 = upToRender l) ∨
          ("render" ∉ l ∧ (checkLoop env isbn l).1 = outFallback isbn ∧
              (checkLoop env isbn l).2.2 = l)) ∧
      ∃ suf, (checkLoop env isbn l).2.2 ++ suf = l := by
  intro l
  induction l with
  | nil =>
    refine ⟨fun t ht => by simp [checkLoop] at ht, fun _ => Or.inr ?_, [], rfl⟩
    simp [checkLoop]
  | cons s rest ih =>
    by_cases hapi : s = "api"
    · subst hapi
      rcases ha : apiAttempt env.api isbn with _ | out
      · have hval : checkLoop env isbn ("api" :: rest) =
            ((checkLoop env isbn rest).1, (checkLoop env isbn rest).2.1,
              "api" :: (checkLoop env isbn rest).2.2) := by
          simp [checkLoop, ha]
        refine ⟨fun t ht => ?_, fun hm => ?_, ?_⟩
        · rw [hval] at ht ⊢
          exact ⟨List.mem_cons_of_mem _ (ih.1 t ht).1, (ih.1 t ht).2⟩
        · rw [hval] at hm ⊢
          rcases ih.2.1 hm with ⟨h1, h2, h3⟩ | ⟨h1, h2, h3⟩
          · exact Or.inl ⟨List.mem_cons_of_mem _ h1, h2, by
              simp [upToRender, h3]⟩
          · refine Or.inr ⟨?_, h2, by simp [h3]⟩
            simp only [List.mem_cons, not_or]
            exact ⟨by decide, h1⟩
        · rw [hval]
          obtain ⟨suf, hsuf⟩ := ih.2.2
          exact ⟨suf, by simp [hsuf]⟩
      · have hval : checkLoop env isbn ("api" :: rest) = (out, some "api", ["api"]) := by
          simp [checkLoop, ha]
        refine ⟨fun t ht => ?_, fun hm => by rw [hval] at hm; exact absurd hm (by simp), ?_⟩
        · rw [hval] at ht ⊢
          obtain rfl : "api" = t := Option.some.inj ht
          exact ⟨List.mem_cons_self _ _, by simpa [tierAttempt] using ha⟩
        · rw [hval]; exact ⟨rest, rfl⟩
    · by_cases hplain : s = "plain"
      · subst hplain
        rcases hp : plainAttempt env.plain isbn with _ | out
        · have hval : checkLoop env isbn ("plain" :: rest) =
              ((checkLoop env isbn rest).1, (checkLoop env isbn rest).2.1,
                "plain" :: (checkLoop env isbn rest).2.2) := by
            simp [checkLoop, hp]
          refine ⟨fun t ht => ?_, fun hm => ?_, ?_⟩
          · rw [hval] at ht ⊢
            exact ⟨List.mem_cons_of_mem _ (ih.1 t ht).1, (ih.1 t ht).2⟩
          · rw [hval] at hm ⊢
            rcases ih.2.1 hm with ⟨h1, h2, h3⟩ | ⟨h1, h2, h3⟩
            · exact Or.inl ⟨List.mem_cons_of_mem _ h1, h2, by
                simp [upToRender, h3]⟩
            · refine Or.inr ⟨?_, h2, by simp [h3]⟩
              simp only [List.mem_cons, not_or]
              exact ⟨by decide, h1⟩
          · rw [hval]
            obtain ⟨suf, hsuf⟩ := ih.2.2
            exact ⟨suf, by simp [hsuf]⟩
        · have hval : checkLoop env isbn ("plain" :: rest) = (out, some "plain", ["plain"]) := by
            simp [checkLoop, hp]
          refine ⟨fun t ht => ?_, fun hm => by rw [hval] at hm; exact absurd hm (by simp), ?_⟩
          · rw [hval] at ht ⊢
            obtain rfl : "plain" = t := Option.some.inj ht
            exact ⟨List.mem_cons_self _ _, by simpa [tierAttempt] using hp⟩
          · rw [hval]; exact ⟨rest, rfl⟩
      · by_cases hrender : s = "render"
        · subst hrender
          rcases hr : renderAttempt env.render isbn with _ | out
          · have hval : checkLoop env isbn ("render" :: rest) =
                (outExhausted isbn env.render, none, ["render"]) := by
              simp [checkLoop, hr]
            refine ⟨fun t ht => by rw [hval] at ht; exact absurd ht (by simp),
              fun _ => Or.inl ?_, ?_⟩
            · rw [hval]
              exact ⟨List.mem_cons_self _ _, rfl, by simp [upToRender]⟩
            · rw [hval]; exact ⟨rest, rfl⟩
          · have hval : checkLoop env isbn ("render" :: rest) =
                (out, some "render", ["render"]) := by
              simp [checkLoop, hr]
            refine ⟨fun t ht => ?_, fun hm => by rw [hval] at hm; exact absurd hm (by simp), ?_⟩
            · rw [hval] at ht ⊢
              obtain rfl : "render" = t := Option.some.inj ht
              exact ⟨List.mem_cons_self _ _, by simpa [tierAttempt] using hr⟩
            · rw [hval]; exact ⟨rest, rfl⟩
        · have hval : checkLoop env isbn (s :: rest) =
              ((checkLoop env isbn rest).1, (checkLoop env isbn rest).2.1,
                s :: (checkLoop env isbn rest).2.2) := by
            simp [checkLoop, hapi, hplain, hrender]
          refine ⟨fun t ht => ?_, fun hm => ?_, ?_⟩
          · rw [hval] at ht ⊢
            exact ⟨List.mem_cons_of_mem _ (ih.1 t ht).1, (ih.1 t ht).2⟩
          · rw [hval] at hm ⊢
            rcases ih.2.1 hm with ⟨h1, h2, h3⟩ | ⟨h1, h2, h3⟩
            · exact Or.inl ⟨List.mem_cons_of_mem _ h1, h2, by
                simp [upToRender, Ne.symm hrender, hrender, h3]⟩
            · refine Or.inr ⟨?_, h2, by simp [h3]⟩
              simp only [List.mem_cons, not_or]
              exact ⟨fun hc => hrender hc.symm, h1⟩
          · rw [hval]
            obtain ⟨suf, hsuf⟩ := ih.2.2
            exact ⟨suf, by simp [hsuf]⟩

theorem availability_outBuy (isbn : String) (p : ℚ) (t : String) :
    availability (outBuy isbn p t) = Avail.buyable := rfl

theorem availability_outNotBuy (isbn t : String) :
    availability (outNotBuy isbn t) = Avail.notBuyable := rfl

theorem availability_outExhausted (isbn : String) (resp : Option Response) :
    availability (outExhausted isbn resp) = Avail.unknown := rfl

theorem availability_outFallback (isbn : String) :
    availability (outFallback isbn) = Avail.unknown := rfl

theorem exhausted_error_ne (s : String) :
    "All strategies failed (last HTTP: " ++ s ++ ")" ≠ "Could not retrieve data" := by
  intro h
  have hlen := congrArg String.length h
  rw [String.length_append, String.length_append] at hlen
  have h1 : ("All strategies failed (last HTTP: " : String).length = 34 := rfl
  have h2 : (")" : String).length = 1 := rfl
  have h3 : ("Could not retrieve data" : String).length = 23 := rfl
  omega

theorem render_mem_strategiesFor (km : Option String) : "render" ∈ strategiesFor km := by
  rcases km with _ | m
  · decide
  · unfold strategiesFor
    dsimp only
    split
    · by_cases hm : m = "render"
      · subst hm; exact List.mem_cons_self _ _
      · refine List.mem_cons_of_mem _ (List.mem_filter.mpr ⟨by decide, ?_⟩)
        simpa using Ne.symm hm
    · decide

/-- C3: for every Outcome a resolution produces, the price is present iff
availability is buyable, and the error is present iff availability is
unknown-due-to-error (hence a not-buyable Outcome never carries an error,
and a price never appears without buyable availability). -/
theorem claim_C3 (env : Env) (isbn : String) (km : Option String) :
    ((check_isbn_on_momox env isbn km).1.price.isSome ↔
      availability (check_isbn_on_momox env isbn km).1 = Avail.buyable) ∧
    ((check_isbn_on_momox env isbn km).1.error.isSome ↔
      availability (check_isbn_on_momox env isbn km).1 = Avail.unknown) := by
  have hspec := checkLoop_spec env isbn (strategiesFor km)
  rcases hm : (checkLoop env isbn (strategiesFor km)).2.1 with _ | t
  · rcases hspec.2.1 hm with ⟨_, h2, _⟩ | ⟨_, h2, _⟩ <;>
      simp [check_isbn_on_momox, check_isbn_run, h2, availability, outExhausted, outFallback]
  · obtain ⟨_, hatt⟩ := hspec.1 t hm
    rcases tierAttempt_shape env isbn t _ hatt with ⟨s, hs⟩ | ⟨p, s, hs⟩ <;>
      simp [check_isbn_on_momox, check_isbn_run, hs, availability, outNotBuy, outBuy]

/-- C10: the resolution always returns from inside the strategy loop — a
method of `None` means the render branch produced the exhausted Outcome,
whose error reads "All strategies failed (last HTTP: ...)"; the post-loop
fallback with error "Could not retrieve data" is unreachable. -/
theorem claim_C10 (env : Env) (isbn : String) (km : Option String) :
    ((check_isbn_on_momox env isbn km).2 = none →
      (check_isbn_on_momox env isbn km).1 = outExhausted isbn env.render) ∧
    (check_isbn_on_momox env isbn km).1.error ≠ some "Could not retrieve data" := by
  have hspec := checkLoop_spec env isbn (strategiesFor km)
  have hrmem := render_mem_strategiesFor km
  rcases hm : (checkLoop env isbn (strategiesFor km)).2.1 with _ | t
  · rcases hspec.2.1 hm with ⟨_, h2, _⟩ | ⟨h1, _, _⟩
    · refine ⟨fun _ => by simp [check_isbn_on_momox, check_isbn_run, h2], ?_⟩
      simp only [check_isbn_on_momox, check_isbn_run, h2, outExhausted]
      intro hc
      exact exhausted_error_ne (statusStr env.render) (Option.some.inj hc)
    · exact absurd hrmem h1
  · obtain ⟨_, hatt⟩ := hspec.1 t hm
    refine ⟨fun hc => ?_, ?_⟩
    · rw [check_isbn_on_momox] at hc
      rw [check_isbn_run] at hc
      rw [hm] at hc
      exact absurd hc (by simp)
    · rcases tierAttempt_shape env isbn t _ hatt with ⟨s, hs⟩ | ⟨p, s, hs⟩ <;>
        simp [check_isbn_on_momox, check_isbn_run, hs, outNotBuy, outBuy]

/-- Witness for C10 at a concrete all-failing environment. -/
theorem claim_C10_witness :
    (check_isbn_on_momox envFailAll "X" none).1 = outExhausted "X" envFailAll.render :=
  (claim_C10 envFailAll "X" none).1 (by decide)

/-- C1 (amended): a Method Memory entry of `api` behaves exactly like no
memory entry, and when no tier is conclusive every starting tier yields
the same exhausted Outcome; a starting tier of `plain` or `render` may
change the terminal Outcome (see the counterexample). -/
theorem claim_C1 (env : Env) (isbn : String) :
    check_isbn_on_momox env isbn (some "api") = check_isbn_on_momox env isbn none ∧
    (noTierConclusive env isbn →
      ∀ km, check_isbn_on_momox env isbn km = check_isbn_on_momox env isbn none) := by
  have hbase : strategiesFor (some "api") = strategiesFor none := by decide
  constructor
  · simp only [check_isbn_on_momox, check_isbn_run, hbase]
  · rintro ⟨h1, h2, h3⟩ km
    have hnone : checkLoop env isbn (strategiesFor none) =
        (outExhausted isbn env.render, none, ["api", "plain", "render"]) := by
      simp [strategiesFor, checkLoop, h1, h2, h3]
    rcases km with _ | m
    · rfl
    · by_cases hm1 : m = "api"
      · subst hm1
        simp only [check_isbn_on_momox, check_isbn_run, hbase]
      · by_cases hm2 : m = "plain"
        · subst hm2
          have hl : strategiesFor (some "plain") = ["plain", "api", "render"] := by decide
          simp only [check_isbn_on_momox, check_isbn_run, hl, hnone]
          simp [checkLoop, h1, h2, h3]
        · by_cases hm3 : m = "render"
          · subst hm3
            have hl : strategiesFor (some "render") = ["render", "api", "plain"] := by decide
            simp only [check_isbn_on_momox, check_isbn_run, hl, hnone]
            simp [checkLoop, h3]
          · have hl : strategiesFor (some m) = strategiesFor none := by
              unfold strategiesFor
              dsimp only
              rw [if_neg]
              simp [hm1, hm2, hm3]
            simp only [check_isbn_on_momox, check_isbn_run, hl]

/-- Counterexample to C1 as stated: with a conclusive api tier and an
inconclusive (HTTP 200) render tier, a Method Memory entry of `render`
produces the exhausted Outcome while no memory entry produces the
buyable api Outcome. -/
theorem claim_C1_counterexample :
    check_isbn_on_momox envMix "X" (some "render") ≠
      check_isbn_on_momox envMix "X" none := by with_unfolding_all decide

/-- Witness for C1 at a concrete environment with no conclusive tier. -/
theorem claim_C1_witness :
    check_isbn_on_momox envFailAll "X" (some "render") =
      check_isbn_on_momox envFailAll "X" none :=
  (claim_C1 envFailAll "X").2 (by decide) (some "render")

/-- C2 (amended): the tried tiers always form a prefix of the strategy
order (a permutation of the three tiers, so none is ever retried), and an
exhausted resolution has tried the order up to and including its first
`render` entry — which is the entire three-tier order whenever the
starting tier is not `render`, but only `render` itself when Method
Memory recorded `render` (the render branch returns unconditionally). -/
theorem claim_C2 (env : Env) (isbn : String) (km : Option String) :
    (∃ suf, (check_isbn_run env isbn km).2.2 ++ suf = strategiesFor km) ∧
    List.Perm (strategiesFor km) ["api", "plain", "render"] ∧
    ((check_isbn_run env isbn km).2.1 = none →
      (check_isbn_run env isbn km).2.2 = upToRender (strategiesFor km)) ∧
    ((check_isbn_run env isbn km).2.1 = none → km ≠ some "render" →
      (check_isbn_run env isbn km).2.2 = strategiesFor km) := by
  have hspec := checkLoop_spec env isbn (strategiesFor km)
  have hrmem := render_mem_strategiesFor km
  have hstrat : ∀ m : String, m ≠ "api" → m ≠ "plain" → m ≠ "render" →
      strategiesFor (some m) = ["api", "plain", "render"] := by
    intro m hm1 hm2 hm3
    unfold strategiesFor
    dsimp only
    rw [if_neg]
    simp [hm1, hm2, hm3]
  have hperm : List.Perm (strategiesFor km) ["api", "plain", "render"] := by
    rcases km with _ | m
    · decide
    · by_cases hm1 : m = "api"
      · subst hm1; decide
      · by_cases hm2 : m = "plain"
        · subst hm2; decide
        · by_cases hm3 : m = "render"
          · subst hm3; decide
          · rw [hstrat m hm1 hm2 hm3]
  refine ⟨hspec.2.2, hperm, fun hm2 => ?_, fun hm2 hkm => ?_⟩
  · rcases hspec.2.1 hm2 with ⟨_, _, h3⟩ | ⟨h1, _, _⟩
    · exact h3
    · exact absurd hrmem h1
  · have htr : (check_isbn_run env isbn km).2.2 = upToRender (strategiesFor km) := by
      rcases hspec.2.1 hm2 with ⟨_, _, h3⟩ | ⟨h1, _, _⟩
      · exact h3
      · exact absurd hrmem h1
    rw [htr]
    rcases km with _ | m
    · decide
    · by_cases hc1 : m = "api"
      · subst hc1; decide
      · by_cases hc2 : m = "plain"
        · subst hc2; decide
        · by_cases hc3 : m = "render"
          · exact absurd (by rw [hc3]) hkm
          · rw [hstrat m hc1 hc2 hc3]; decide

/-- Counterexample to C2 as stated: with Method Memory `render` and an
inconclusive 200 render response, the engine gives up having tried only
the render tier, although the untried api tier is conclusive. -/
theorem claim_C2_counterexample :
    (check_isbn_run envMix "X" (some "render")).2.1 = none ∧
    (check_isbn_run envMix "X" (some "render")).2.2 = ["render"] ∧
    apiAttempt envMix.api "X" ≠ none := by with_unfolding_all decide

/-- Witness for C2: an all-failing run with no memory tries all three
tiers in the fixed cost order. -/
theorem claim_C2_witness :
    (check_isbn_run envFailAll "X" none).2.2 = strategiesFor none :=
  (claim_C2 envFailAll "X" none).2.2.2 (by decide) (by decide)

theorem exhausted_error_nonempty (s : String) :
    "All strategies failed (last HTTP: " ++ s ++ ")" ≠ "" := by
  intro h
  have hlen := congrArg String.length h
  rw [String.length_append, String.length_append] at hlen
  have h1 : ("All strategies failed (last HTTP: " : String).length = 34 := rfl
  have h2 : (")" : String).length = 1 := rfl
  have h3 : ("" : String).length = 0 := rfl
  omega

/-- C4: an exhausted resolution yields availability unknown with a
non-empty error string, and the Method Memory update (`if method:`)
leaves memory untouched, entry present or absent alike. -/
theorem claim_C4 (env : Env) (isbn : String) (km : Option String) (methods : Methods)
    (h : (check_isbn_on_momox env isbn km).2 = none) :
    availability (check_isbn_on_momox env isbn km).1 = Avail.unknown ∧
    (∃ e, (check_isbn_on_momox env isbn km).1.error = some e ∧ e ≠ "") ∧
    updateMethods methods isbn (check_isbn_on_momox env isbn km).2 = methods := by
  have hspec := checkLoop_spec env isbn (strategiesFor km)
  have hrmem := render_mem_strategiesFor km
  have hm : (checkLoop env isbn (strategiesFor km)).2.1 = none := h
  rcases hspec.2.1 hm with ⟨_, h2, _⟩ | ⟨h1, _, _⟩
  · refine ⟨?_, ?_, ?_⟩
    · show availability (checkLoop env isbn (strategiesFor km)).1 = Avail.unknown
      rw [h2]
      exact availability_outExhausted isbn env.render
    · refine ⟨"All strategies failed (last HTTP: " ++ statusStr env.render ++ ")", ?_,
        exhausted_error_nonempty (statusStr env.render)⟩
      show (checkLoop env isbn (strategiesFor km)).1.error = _
      rw [h2]
      rfl
    · show updateMethods methods isbn (checkLoop env isbn (strategiesFor km)).2.1 = methods
      rw [hm]
      rfl
  · exact absurd hrmem h1

/-- Witness for C4 at a concrete all-failing environment. -/
theorem claim_C4_witness :
    availability (check_isbn_on_momox envFailAll "Y" none).1 = Avail.unknown ∧
    (∃ e, (check_isbn_on_momox envFailAll "Y" none).1.error = some e ∧ e ≠ "") ∧
    updateMethods m0none "Y" (check_isbn_on_momox envFailAll "Y" none).2 = m0none :=
  claim_C4 envFailAll "Y" none m0none (by decide)

theorem strategiesFor_eq_of_not3 (m : String) (hm1 : m ≠ "api") (hm2 : m ≠ "plain")
    (hm3 : m ≠ "render") : strategiesFor (some m) = ["api", "plain", "render"] := by
  unfold strategiesFor
  dsimp only
  rw [if_neg]
  simp [hm1, hm2, hm3]

theorem strategiesFor_perm (km : Option String) :
    List.Perm (strategiesFor km) ["api", "plain", "render"] := by
  rcases km with _ | m
  · decide
  · by_cases hm1 : m = "api"
    · subst hm1; decide
    · by_cases hm2 : m = "plain"
      · subst hm2; decide
      · by_cases hm3 : m = "render"
        · subst hm3; decide
        · rw [strategiesFor_eq_of_not3 m hm1 hm2 hm3]

/-- The method returned by a resolution is `None` or one of the three
tier names. -/
theorem check_method_cases (env : Env) (isbn : String) (km : Option String) :
    (check_isbn_run env isbn km).2.1 = none ∨
    (check_isbn_run env isbn km).2.1 = some "api" ∨
    (check_isbn_run env isbn km).2.1 = some "plain" ∨
    (check_isbn_run env isbn km).2.1 = some "render" := by
  rcases hm : (check_isbn_run env isbn km).2.1 with _ | t
  · exact Or.inl rfl
  · obtain ⟨hmem, _⟩ := (checkLoop_spec env isbn (strategiesFor km)).1 t hm
    have ht : t ∈ (["api", "plain", "render"] : List String) :=
      ((strategiesFor_perm km).mem_iff).mp hmem
    simp only [List.mem_cons, List.not_mem_nil, or_false] at ht
    rcases ht with rfl | rfl | rfl
    · exact Or.inr (Or.inl rfl)
    · exact Or.inr (Or.inr (Or.inl rfl))
    · exact Or.inr (Or.inr (Or.inr rfl))

/-- A single Method Memory update of the scheduler preserves the
invariant that every entry stems from a conclusive tier. -/
theorem updateMethods_good (env : String → Env) (m0 : Methods) (methods : Methods)
    (isbn : String) (km : Option String) (h : GoodMem env m0 methods) :
    GoodMem env m0
      (updateMethods methods isbn (check_isbn_run (env isbn) isbn km).2.1) := by
  intro x
  rcases hm : (check_isbn_run (env isbn) isbn km).2.1 with _ | t
  · exact h x
  · by_cases hx : x = isbn
    · subst hx
      obtain ⟨_, hatt⟩ := (checkLoop_spec (env x) x (strategiesFor km)).1 t hm
      refine Or.inr ⟨t, (check_isbn_run (env x) x km).1, ?_, hatt⟩
      simp [updateMethods]
    · have heq : updateMethods methods isbn (some t) x = methods x := by
        simp [updateMethods, hx]
      rw [heq]
      exact h x

theorem pass1_good (env : String → Env) (m0 : Methods) (n : Nat) :
    ∀ (l : List String) (i : Nat) (methods : Methods),
      GoodMem env m0 methods → GoodMem env m0 (pass1 env n i methods l).methods := by
  intro l
  induction l with
  | nil => intro i methods h; exact h
  | cons isbn rest ih =>
    intro i methods h
    simp only [pass1]
    split
    · exact ih (i + 1) methods h
    · split
      · exact ih (i + 1) _ (updateMethods_good env m0 methods isbn (methods isbn) h)
      · exact ih (i + 1) methods h

theorem pass2_good (env : String → Env) (m0 : Methods) (n2 : Nat) :
    ∀ (l : List String) (i : Nat) (methods : Methods),
      GoodMem env m0 methods → GoodMem env m0 (pass2 env n2 i methods l).methods := by
  intro l
  induction l with
  | nil => intro i methods h; exact h
  | cons isbn rest ih =>
    intro i methods h
    simp only [pass2]
    exact ih (i + 1) _ (updateMethods_good env m0 methods isbn (some "render") h)

/-- C7: the Method Memory update writes exactly the tier that produced
the conclusive Outcome (hence a cheaper conclusive tier overwrites a
costlier remembered one) and leaves memory untouched otherwise; across a
whole batch every entry that differs from the initial memory names a
tier whose fixed response conclusively resolved that identifier. -/
theorem claim_C7 :
    (∀ (env : Env) (isbn : String) (km : Option String) (methods : Methods),
      (updateMethods methods isbn (check_isbn_run env isbn km).2.1) isbn =
        (match (check_isbn_run env isbn km).2.1 with
          | some t => some t
          | none => methods isbn) ∧
      (∀ t, (check_isbn_run env isbn km).2.1 = some t →
        tierAttempt env isbn t = some (check_isbn_run env isbn km).1)) ∧
    (∀ (env : String → Env) (isbns : List String) (m0 : Methods) (x : String),
      (scan_all_isbns env isbns m0).methods x = m0 x ∨
        ∃ t out, (scan_all_isbns env isbns m0).methods x = some t ∧
          tierAttempt (env x) x t = some out) := by
  constructor
  · intro env isbn km methods
    constructor
    · rcases hm : (check_isbn_run env isbn km).2.1 with _ | t
      · rfl
      · simp [updateMethods]
    · intro t hm
      exact ((checkLoop_spec env isbn (strategiesFor km)).1 t hm).2
  · intro env isbns m0 x
    exact pass2_good env m0 _ _ 1 _
      (pass1_good env m0 isbns.length isbns 1 m0 (fun _ => Or.inl rfl)) x

/-- Witness for C7: api produced the conclusive Outcome that a memory of
`plain` is overwritten with. -/
theorem claim_C7_witness :
    tierAttempt envMix "X" "api" = some (check_isbn_run envMix "X" none).1 :=
  (claim_C7.1 envMix "X" none m0none).2 "api" (by with_unfolding_all decide)

/-- C9: a page containing any will-not-buy phrase is concluded
not-buyable by the free-text extraction, with no price, regardless of any
price-looking substrings elsewhere in the document. -/
theorem claim_C9 (html isbn : String)
    (h : ∃ s ∈ notBuySignals, isSubList s.data (pyLower html.data) = true) :
    is_not_buying html = true ∧
    htmlConclude html isbn = some (outNotBuy isbn (extract_title html isbn)) ∧
    (outNotBuy isbn (extract_title html isbn)).available = false ∧
    (outNotBuy isbn (extract_title html isbn)).price = none := by
  have hnb : is_not_buying html = true := by
    obtain ⟨s, hs, hsub⟩ := h
    unfold is_not_buying
    exact List.any_eq_true.mpr ⟨s, hs, hsub⟩
  refine ⟨hnb, ?_, rfl, rfl⟩
  simp [htmlConclude, hnb]

/-- Witness for C9 at a page carrying both the phrase and a price. -/
theorem claim_C9_witness :
    is_not_buying exampleNotBuy = true ∧
    htmlConclude exampleNotBuy "Z" =
      some (outNotBuy "Z" (extract_title exampleNotBuy "Z")) ∧
    (outNotBuy "Z" (extract_title exampleNotBuy "Z")).available = false ∧
    (outNotBuy "Z" (extract_title exampleNotBuy "Z")).price = none :=
  claim_C9 exampleNotBuy "Z" (by decide)

/-- C6 (amended): when the first occurrence of the footer marker is at a
positive index, the whole scan of `parse_price_from_html` — including the
embedded-JSON-blob scan — runs on the prefix strictly before the marker,
so nothing at or after the marker can influence the result; and the
"Du erhältst 2,50 €" document with no price in its excluded footer yields
price 2.50.  (When the document begins with the marker at index 0 the
`footer_pos > 0` guard strips nothing; see the counterexample.) -/
theorem claim_C6 (html : String) :
    (0 < footerPos html →
      parse_price_from_html html =
        mainRegionPrice (html.data.take (footerPos html).toNat)) ∧
    parse_price_from_html exampleHtml250 = some (5 / 2) := by
  constructor
  · intro hpos
    unfold parse_price_from_html htmlMain
    rw [if_pos hpos]
  · with_unfolding_all decide

/-- Counterexample to C6 as stated: a document whose footer marker sits at
index 0 is not stripped at all, and a price occurring only inside the
footer region is returned by the blob scan. -/
theorem claim_C6_counterexample :
    footerPos exampleFooterAt0 = 0 ∧
    parse_price_from_html exampleFooterAt0 = some 3 := by
  with_unfolding_all decide

/-- Witness for C6 at a document with a positively positioned footer. -/
theorem claim_C6_witness :
    parse_price_from_html "a<footer>b" =
      mainRegionPrice ("a<footer>b".data.take (footerPos "a<footer>b").toNat) :=
  (claim_C6 "a<footer>b").1 (by decide)

/-- C8 (amended): `parse_price_from_json` returns normally exactly on dict
inputs — applied to any non-dict parsed JSON value it raises
`AttributeError` (see the counterexample) — and its api call site
catches that exception, so a non-dict JSON response merely falls through
to the next tier. -/
theorem claim_C8 :
    (∀ v : PyVal,
      exceptOk (parse_price_from_json_dyn v) = true ↔ ∃ kvs, v = PyVal.obj kvs) ∧
    (∀ (r : Response) (isbn : String) (xs : List PyVal),
      pyJsonLoads r.text = some (PyVal.arr xs) → apiAttempt (some r) isbn = none) := by
  constructor
  · intro v
    constructor
    · intro hok
      cases v with
      | obj kvs => exact ⟨kvs, rfl⟩
      | null => exact absurd hok (by simp [parse_price_from_json_dyn, exceptOk])
      | bool b => exact absurd hok (by simp [parse_price_from_json_dyn, exceptOk])
      | num q => exact absurd hok (by simp [parse_price_from_json_dyn, exceptOk])
      | str s => exact absurd hok (by simp [parse_price_from_json_dyn, exceptOk])
      | arr xs => exact absurd hok (by simp [parse_price_from_json_dyn, exceptOk])
    · rintro ⟨kvs, rfl⟩
      rfl
  · intro r isbn xs hj
    simp only [apiAttempt]
    split
    · simp only [apiConclude, hj]
      split
      · rfl
      · rfl
    · rfl

/-- Counterexample to C8 as stated: the structured heuristic applied to a
parsed JSON array raises `AttributeError`. -/
theorem claim_C8_counterexample :
    parse_price_from_json_dyn (PyVal.arr []) = Except.error "AttributeError" := rfl

/-- Witness for C8: a 200 response whose JSON body is an array makes the
api tier fall through without an escaping exception. -/
theorem claim_C8_witness : apiAttempt (some ⟨200, "[1]"⟩) "X" = none :=
  claim_C8.2 ⟨200, "[1]"⟩ "X" [PyVal.num 1] (by with_unfolding_all rfl)

theorem pass1_polC (env : String → Env) (n : Nat) :
    ∀ (l : List String) (i : Nat) (methods : Methods),
      n + 1 = i + l.length → polC false (pass1 env n i methods l).trace = true := by
  intro l
  induction l with
  | nil => intro i methods _; rfl
  | cons isbn rest ih =>
    intro i methods hlen
    simp only [List.length_cons] at hlen
    simp only [pass1]
    split
    · exact ih (i + 1) methods (by omega)
    · split
      next hc =>
        obtain ⟨tm, htm⟩ :
            ∃ tm, (check_isbn_run (env isbn) isbn (methods isbn)).2.1 = some tm := by
          rcases hc with hc | hc | hc <;> exact ⟨_, hc⟩
        dsimp only
        rw [htm]
        by_cases hi : i < n
        · rw [if_pos hi]
          exact ih (i + 1) _ (by omega)
        · have hrest : rest = [] := List.length_eq_zero.mp (by omega)
          subst hrest
          rw [if_neg hi]
          rfl
      next hc =>
        have hnone : (check_isbn_run (env isbn) isbn (methods isbn)).2.1 = none := by
          rcases check_method_cases (env isbn) isbn (methods isbn) with h0 | h0 | h0 | h0
          · exact h0
          · exact absurd (Or.inr (Or.inl h0)) hc
          · exact absurd (Or.inr (Or.inr h0)) hc
          · exact absurd (Or.inl h0) hc
        dsimp only
        rw [hnone]
        exact ih (i + 1) methods (by omega)

theorem pass2_polS (env : String → Env) (n2 : Nat) :
    ∀ (l : List String) (i : Nat) (methods : Methods),
      n2 + 1 = i + l.length → polS false (pass2 env n2 i methods l).trace = true := by
  intro l
  induction l with
  | nil => intro i methods _; rfl
  | cons isbn rest ih =>
    intro i methods hlen
    simp only [List.length_cons] at hlen
    simp only [pass2]
    by_cases hi : i < n2
    · rw [if_pos hi]
      exact ih (i + 1) _ (by omega)
    · have hrest : rest = [] := List.length_eq_zero.mp (by omega)
      subst hrest
      rw [if_neg hi]
      rfl

/-- C5 (amended): in pass 1 a sleep is interposed after every conclusive
network resolution before the next resolution, and in pass 2 a sleep is
interposed between every two successive (always network-touching)
resolutions; a pass-1 resolution that ends exhausted performs network
calls yet is not followed by the delay (see the counterexample), and a
pure memory deferral pays no delay. -/
theorem claim_C5 (env : String → Env) (isbns : List String) (m0 : Methods) :
    polC false (scan_all_isbns env isbns m0).trace1 = true ∧
    polS false (scan_all_isbns env isbns m0).trace2 = true := by
  constructor
  · exact pass1_polC env isbns.length isbns 1 m0 (by omega)
  · exact pass2_polS env
      (pass1 env isbns.length 1 m0 isbns).pending.length
      (pass1 env isbns.length 1 m0 isbns).pending 1
      (pass1 env isbns.length 1 m0 isbns).methods (by omega)

/-- Counterexample to C5 as stated: identifier A exhausts all tiers
(performing network calls) and is deferred without a sleep, so its
resolution and the next network-touching resolution of the same pass run
back to back. -/
theorem claim_C5_counterexample :
    polS false (scan_all_isbns envAB ["A", "B"] m0none).trace1 = false ∧
    (scan_all_isbns envAB ["A", "B"] m0none).trace1 =
      [Ev.resolve "A" true none, Ev.resolve "B" true (some "api")] := by
  with_unfolding_all decide

end Momox
